import Mathlib

/-!
Shallow embedding of the elastix scripting layer of brainglobe-registration:
`setup_parameter_object` and `run_registration` from
`brainglobe_registration/elastix/register.py` (the variant with annotation
transform and deformation-field support), the superseded simpler variant of
the same module, and the spin-box adjustment widget
`AdjustMovingImageView` from `widgets/adjust_moving_image_view.py`.

The external engine (ITK/elastix) is a black box: its calls are modelled as
parameters of the orchestration functions, each returning `Except` to model
the exceptions the engine may raise.  File-system effects are modelled by
explicit state passing of an association list from path to file content.
-/

namespace BgReg

/-- An elastix parameter map: ordered association list from option name to a
list of string values (`itk.ParameterObject` submap).  Python dicts have
distinct keys; dict-ness is carried as a `Nodup` hypothesis where needed. -/
abbrev ParameterMap := List (String × List String)

/-- Key lookup in a parameter map (`parameter_map[k]`). -/
def mapLookup (m : ParameterMap) (k : String) : Option (List String) :=
  (m.find? (fun kv => kv.1 = k)).map Prod.snd

/-- `parameter_map[k] = v`: replace the value at an existing key in place,
otherwise append the new entry. -/
def mapSet (m : ParameterMap) (k : String) (v : List String) : ParameterMap :=
  if (m.find? (fun kv => kv.1 = k)).isSome then
    m.map (fun kv => if kv.1 = k then (k, v) else kv)
  else
    m ++ [(k, v)]

/-- `itk.ParameterObject`: an ordered sequence of parameter maps. -/
structure ParameterObject where
  maps : List ParameterMap
deriving Repr, DecidableEq

/-- The transform name the engine documents for each recognized default
parameter-map kind; `none` for unknown kinds. -/
def defaultTransformName (kind : String) : Option String :=
  if kind = "translation" then some "TranslationTransform"
  else if kind = "rigid" then some "EulerTransform"
  else if kind = "affine" then some "AffineTransform"
  else if kind = "bspline" then some "BSplineTransform"
  else if kind = "spline" then some "SplineKernelTransform"
  else if kind = "groupwise" then some "BSplineStackTransform"
  else none

/-- `itk.ParameterObject.GetDefaultParameterMap(kind)`: the engine's
documented default option map for the kind (a representative subset of the
documented entries; which entries appear does not matter to the claims, only
that the map is kind-dependent and nonempty), raising an engine error for an
unknown kind. -/
def GetDefaultParameterMap (kind : String) : Except String ParameterMap :=
  match defaultTransformName kind with
  | some t =>
      .ok [("Transform", [t]),
           ("MaximumNumberOfIterations", ["256"]),
           ("FinalBSplineInterpolationOrder", ["3"]),
           ("NumberOfResolutions", ["4"])]
  | none => .error ("No default parameter map \"" ++ kind ++ "\"")

/-- One loop iteration of `setup_parameter_object`: fetch the default map for
the transform type (raises on unknown kind), `clear()` it, then copy the
caller's dictionary entries into it in iteration order. -/
def buildStageMap (transform_type : String) (parameter_dict : ParameterMap) :
    Except String ParameterMap := do
  let parameter_map ← GetDefaultParameterMap transform_type
  -- parameter_map.clear()
  let parameter_map : ParameterMap := []
  -- for k, v in parameter_dict.items(): parameter_map[k] = v
  pure (parameter_dict.foldl (fun m kv => mapSet m kv.1 kv.2) parameter_map)

/-- The `for` loop of `setup_parameter_object`: one `AddParameterMap` append
per spec, in input order, propagating the first engine error. -/
def setupLoop (parameter_lists : List (String × ParameterMap))
    (acc : List ParameterMap) : Except String (List ParameterMap) :=
  match parameter_lists with
  | [] => .ok acc
  | s :: rest => do
      let m ← buildStageMap s.1 s.2
      setupLoop rest (acc ++ [m])

/-- `setup_parameter_object(parameter_lists)` from
`brainglobe_registration/elastix/register.py`: start from an empty
`itk.ParameterObject.New()` and run the loop. -/
def setup_parameter_object (parameter_lists : List (String × ParameterMap)) :
    Except String ParameterObject :=
  (setupLoop parameter_lists []).map ParameterObject.mk

/-- A 2D image: dense array of pixel values (rows of columns).  Pixel values
are modelled as integers; the claims proved below are structural and do not
depend on the numeric type. -/
abbrev Image := List (List Int)

/-- A 2D deformation field in the engine's axis order: per pixel a pair of
displacement components, component 0 first (`deformation_field[:, :, 0]` is
the engine's component 0). -/
abbrev DeformationField := List (List (Int × Int))

/-- Component slice `deformation_field[:, :, c]`. -/
def componentSlice (df : DeformationField) (c : Fin 2) : Image :=
  df.map (fun row => row.map (fun v => if c = (0 : Fin 2) then v.1 else v.2))

/-- Modelled from the source comment `# Switch the axes from ITK to numpy`:
the engine stores deformation components in ITK order (column displacement
first), while the caller's numpy convention is (row, column), so the
component for the caller's axis `a` is the engine's component `1 - a`. -/
def callerAxisComponent (df : DeformationField) (a : Fin 2) : Image :=
  componentSlice df ⟨1 - a.val, by omega⟩

/-- The content of a file on disk: an image (component tiff) or a
deformation field (the engine's stray `deformationField.tiff`). -/
inductive FileData where
  | img (i : Image)
  | fld (d : DeformationField)
deriving Repr, DecidableEq

/-- The file system: association list from path to content. -/
abbrev FS := List (String × FileData)

/-- `tifffile.imwrite(path, data)`: create or overwrite the file. -/
def imwrite (fs : FS) (path : String) (data : FileData) : FS :=
  (path, data) :: fs.filter (fun e => e.1 ≠ path)

/-- File lookup by path. -/
def fsLookup (fs : FS) (path : String) : Option FileData :=
  (fs.find? (fun e => e.1 = path)).map Prod.snd

/-- Errors a `run_registration` call can raise.  `engineError` models a raw
engine exception (`itk` `RuntimeError`) propagating out of the call;
`registrationError` and `inversionError` model the spec's custom wrapper
exception classes; `fileNotFound` models `os.unlink` raising
`FileNotFoundError`. -/
inductive RegError where
  | engineError (msg : String)
  | registrationError (msg : String)
  | inversionError (msg : String)
  | fileNotFound (path : String)
deriving Repr, DecidableEq

/-- Failure signal of a seeded engine run: the engine's non-convergence
signal is distinguishable from its other failures. -/
inductive EngineErr where
  | nonConvergence (msg : String)
  | failure (msg : String)
deriving Repr, DecidableEq

/-- The external registration engine, a black box.  Each field models one
engine entry point the scripting layer calls; `Except` models the exceptions
the engine may raise (malformed option values, dimensional mismatch,
non-convergence). -/
structure Engine where
  /-- `ElastixRegistrationMethod` + `UpdateLargestPossibleRegion`: forward
  registration of the argument pair with the given parameter object,
  returning the result image and the transform parameter object. -/
  elastixRun : Image → Image → ParameterObject →
    Except String (Image × ParameterObject)
  /-- `itk.transformix_filter(image, params)`: apply a transform. -/
  transformix : Image → ParameterObject → Except String Image
  /-- `TransformixFilter` with `SetComputeDeformationField(True)`: returns
  the deformation field and whether the engine wrote its default-named
  stray artifact `deformationField.tiff` to the active directory. -/
  transformixField : Image → ParameterObject →
    Except String (DeformationField × Bool)
  /-- An elastix run seeded with an initial transform (used by the
  transform-inversion path). -/
  elastixRunSeeded : Image → Image → ParameterObject → ParameterObject →
    Except EngineErr (Image × ParameterObject)

/-- `result_transform_parameters.GetParameter(i, key)`: the value of the key
in parameter map `i`; raises if the map or the key is absent. -/
def ParameterObject.GetParameter (p : ParameterObject) (i : Nat) (k : String) :
    Except String (List String) :=
  match p.maps[i]? with
  | some m =>
      match mapLookup m k with
      | some v => .ok v
      | none => .error ("Parameter \"" ++ k ++ "\" not found")
  | none => .error "Parameter map index out of range"

/-- `result_transform_parameters.SetParameter(key, value)` (no index): sets
the key to the value in EVERY parameter map of the object. -/
def ParameterObject.SetParameter (p : ParameterObject) (k : String)
    (v : List String) : ParameterObject :=
  ⟨p.maps.map (fun m => mapSet m k v)⟩

/-- `os.unlink(path)`: remove the file, raising `FileNotFoundError` when the
path does not exist. -/
def unlink (fs : FS) (path : String) : Except RegError FS :=
  if fsLookup fs path = none then .error (.fileNotFound path)
  else .ok (fs.filter (fun e => e.1 ≠ path))

/-- The path of the engine's stray default-named deformation-field artifact:
in the output directory when one is supplied, else in the working
directory. -/
def strayFieldPath (output_directory : Option String) : String :=
  match output_directory with
  | some d => d ++ "/deformationField.tiff"
  | none => "deformationField.tiff"

/-- The result tuple of `run_registration`. -/
structure RunResult where
  result_image : Image
  result_transform_parameters : ParameterObject
  annotation_image_transformix : Image
  deformation_field : DeformationField
deriving Repr, DecidableEq

/-- `run_registration(atlas_image, moving_image, annotation_image,
parameter_lists, output_directory)` from
`brainglobe_registration/elastix/register.py`, parameterized by the engine
and threading the file-system state.  Mirrors the source line by line:
build the parameter object; run elastix (the source passes `moving_image`
first and `atlas_image` second to `New`); save stage 0's
`FinalBSplineInterpolationOrder`; set it to `"0"` in every stage; transform
the annotation image; set the saved value back in every stage; run
transformix with deformation-field output; in output-directory mode write
the two component tiffs and unlink the stray artifact there, else unlink it
from the working directory; return the results. -/
def run_registration (eng : Engine)
    (atlas_image moving_image annotation_image : Image)
    (parameter_lists : List (String × ParameterMap))
    (output_directory : Option String) (fs : FS) :
    Except RegError (RunResult × FS) := do
  let parameter_object ←
    (setup_parameter_object parameter_lists).mapError RegError.engineError
  let elastixOut ←
    (eng.elastixRun moving_image atlas_image parameter_object).mapError
      RegError.engineError
  let result_image := elastixOut.1
  let result_transform_parameters := elastixOut.2
  let temp_interp_order ←
    (result_transform_parameters.GetParameter 0
      "FinalBSplineInterpolationOrder").mapError RegError.engineError
  let overridden :=
    result_transform_parameters.SetParameter
      "FinalBSplineInterpolationOrder" ["0"]
  let annotation_image_transformix ←
    (eng.transformix annotation_image overridden).mapError RegError.engineError
  let restored :=
    overridden.SetParameter "FinalBSplineInterpolationOrder" temp_interp_order
  let fieldOut ←
    (eng.transformixField moving_image restored).mapError RegError.engineError
  let deformation_field := fieldOut.1
  let wroteStray := fieldOut.2
  let fs :=
    if wroteStray then
      imwrite fs (strayFieldPath output_directory) (.fld deformation_field)
    else fs
  let fs ←
    match output_directory with
    | some d =>
        let fs := imwrite fs (d ++ "/deformation_field_0.tiff")
          (.img (componentSlice deformation_field 1))
        let fs := imwrite fs (d ++ "/deformation_field_1.tiff")
          (.img (componentSlice deformation_field 0))
        unlink fs (d ++ "/deformationField.tiff")
    | none => unlink fs "deformationField.tiff"
  pure (⟨result_image, restored, annotation_image_transformix,
         deformation_field⟩, fs)

/-- Modelled from the spec: `invert_transformation` is imported by the tests
from `brainglobe_registration.elastix.register` but absent from the source
tree.  Per spec section 4.4 it re-runs registration using the reference
image as both the fixed and the moving input, seeded with the forward
transform as the initial transform, returns the reference image mapped
through the composed inverse together with the inverse transform object,
and fails with `InversionError` when the seeded optimization diverges
(detected via the engine's non-convergence signal); other engine failures
follow the forward-registration taxonomy. -/
def invert_transformation (eng : Engine) (reference_image : Image)
    (parameter_lists : List (String × ParameterMap))
    (forward_transform : ParameterObject) :
    Except RegError (Image × ParameterObject) := do
  let parameter_object ←
    (setup_parameter_object parameter_lists).mapError RegError.engineError
  match eng.elastixRunSeeded reference_image reference_image parameter_object
      forward_transform with
  | .ok inverted_pair => pure inverted_pair
  | .error (.nonConvergence m) => .error (.inversionError m)
  | .error (.failure m) => .error (.engineError m)

/-- Stated from the spec's words, for comparison with the code: permuting
the two spatial/channel axes of the deformation field — swapping the two
displacement components of every pixel. -/
def spec_permuted_field (df : DeformationField) : DeformationField :=
  df.map (fun row => row.map (fun v => (v.2, v.1)))

end BgReg

namespace BgRegV0

open BgReg

/-- `setup_parameter_object` from the superseded simpler variant
(`src/brainglobe_registration/elastix/register.py`): stages selected by
booleans; rigid and bspline stages use the engine default map unmodified,
the affine stage sets `MaximumNumberOfIterations` on top of the default. -/
def setup_parameter_object (rigid affine bspline : Bool)
    (affine_iterations : String) : Except String ParameterObject := do
  let mut maps : List ParameterMap := []
  if rigid then
    let parameter_map_rigid ← GetDefaultParameterMap "rigid"
    maps := maps ++ [parameter_map_rigid]
  if affine then
    let parameter_map_affine ← GetDefaultParameterMap "affine"
    let parameter_map_affine :=
      mapSet parameter_map_affine "MaximumNumberOfIterations"
        [affine_iterations]
    maps := maps ++ [parameter_map_affine]
  if bspline then
    let parameter_map_bspline ← GetDefaultParameterMap "bspline"
    maps := maps ++ [parameter_map_bspline]
  pure ⟨maps⟩

end BgRegV0

namespace BgRegGui

/-- Qt spin-box value clamping: `setRange(lo, hi)` makes every later
`setValue(v)` store `v` clamped into `[lo, hi]`. -/
def clampTo {α : Type} [LinearOrder α] (lo hi v : α) : α := max lo (min v hi)

/-- The state of `AdjustMovingImageView`: the current values of the three
spin boxes (`adjust_moving_image_x`, `adjust_moving_image_y`,
`adjust_moving_image_rotate`).  The rotation is a `QDoubleSpinBox` value in
degrees, modelled as a rational. -/
structure AdjustMovingImageView where
  x : Int
  y : Int
  rot : Rat
deriving Repr, DecidableEq

/-- `adjust_moving_image_x.setValue(v)`: the box has range
`[-2000, 2000]`. -/
def setXValue (w : AdjustMovingImageView) (v : Int) : AdjustMovingImageView :=
  { w with x := clampTo (-2000) 2000 v }

/-- `adjust_moving_image_y.setValue(v)`: the box has range
`[-2000, 2000]`. -/
def setYValue (w : AdjustMovingImageView) (v : Int) : AdjustMovingImageView :=
  { w with y := clampTo (-2000) 2000 v }

/-- `adjust_moving_image_rotate.setValue(v)`: the box has range
`[-360, 360]`. -/
def setRotationValue (w : AdjustMovingImageView) (v : Rat) :
    AdjustMovingImageView :=
  { w with rot := clampTo (-360) 360 v }

/-- One user interaction with the form: typing a value into one of the
three boxes, stepping the rotation box (whose `setSingleStep` is `0.5`), or
clicking the reset button. -/
inductive UserAction where
  | setX (v : Int)
  | setY (v : Int)
  | setRotation (v : Rat)
  | rotStepUp
  | rotStepDown
  | resetClick
deriving Repr, DecidableEq

/-- Transition of the widget state under one user action.  `resetClick` is
`_on_reset_image_button_click`: all three boxes are set to `0`. -/
def applyAction (w : AdjustMovingImageView) (a : UserAction) :
    AdjustMovingImageView :=
  match a with
  | .setX v => setXValue w v
  | .setY v => setYValue w v
  | .setRotation v => setRotationValue w v
  | .rotStepUp => setRotationValue w (w.rot + 1 / 2)
  | .rotStepDown => setRotationValue w (w.rot - 1 / 2)
  | .resetClick => setRotationValue (setYValue (setXValue w 0) 0) 0

/-- The widget's initial state: Qt spin boxes start at `0`. -/
def initView : AdjustMovingImageView := { x := 0, y := 0, rot := 0 }

/-- The widget state after a sequence of user actions from start-up. -/
def runActions (l : List UserAction) : AdjustMovingImageView :=
  l.foldl applyAction initView

/-- `_on_adjust_image`: the payload emitted on `adjust_image_signal` — the
CURRENT values of all three controls, whichever control changed. -/
def emitAdjustImage (w : AdjustMovingImageView) : Int × Int × Rat :=
  (w.x, w.y, w.rot)

/-- The clamping invariant of the three boxes. -/
def inBounds (w : AdjustMovingImageView) : Prop :=
  -2000 ≤ w.x ∧ w.x ≤ 2000 ∧ -2000 ≤ w.y ∧ w.y ≤ 2000 ∧
  -360 ≤ w.rot ∧ w.rot ≤ 360

end BgRegGui

namespace BgReg

/-! ### Concrete fixtures used by counterexamples and witnesses -/

/-- A tiny concrete image. -/
def cImg : Image := [[0]]

/-- A concrete one-pixel deformation field whose two components differ, so
that a component swap is observable. -/
def cDf : DeformationField := [[(1, 2)]]

/-- A concrete engine-produced transform parameter object whose two stages
hold DIFFERENT `FinalBSplineInterpolationOrder` values. -/
def cRtp : ParameterObject :=
  ⟨[[("Transform", ["EulerTransform"]),
     ("FinalBSplineInterpolationOrder", ["3"])],
    [("Transform", ["BSplineTransform"]),
     ("FinalBSplineInterpolationOrder", ["1"])]]⟩

/-- A concrete engine-produced transform parameter object whose two stages
hold the SAME `FinalBSplineInterpolationOrder` value. -/
def cRtpUniform : ParameterObject :=
  ⟨[[("Transform", ["EulerTransform"]),
     ("FinalBSplineInterpolationOrder", ["3"])],
    [("Transform", ["BSplineTransform"]),
     ("FinalBSplineInterpolationOrder", ["3"])]]⟩

/-- A concrete single-stage spec list with an explicit `Transform` entry. -/
def cSpecs : List (String × ParameterMap) :=
  [("rigid", [("Transform", ["EulerTransform"])])]

/-- A concrete engine: succeeds everywhere, produces `cRtp`, writes the
stray default-named deformation-field artifact. -/
def cEngine : Engine where
  elastixRun := fun _ _ _ => .ok (cImg, cRtp)
  transformix := fun img _ => .ok img
  transformixField := fun _ _ => .ok (cDf, true)
  elastixRunSeeded := fun _ _ _ _ => .error (.nonConvergence "diverged")

/-- A concrete engine identical to `cEngine` except that its stages share
one `FinalBSplineInterpolationOrder` value. -/
def cEngineUniform : Engine where
  elastixRun := fun _ _ _ => .ok (cImg, cRtpUniform)
  transformix := fun img _ => .ok img
  transformixField := fun _ _ => .ok (cDf, true)
  elastixRunSeeded := fun _ _ _ _ => .ok (cImg, cRtpUniform)

/-- A concrete engine that does NOT write the stray default-named
deformation-field artifact. -/
def cEngineNoStray : Engine where
  elastixRun := fun _ _ _ => .ok (cImg, cRtpUniform)
  transformix := fun img _ => .ok img
  transformixField := fun _ _ => .ok (cDf, false)
  elastixRunSeeded := fun _ _ _ _ => .ok (cImg, cRtpUniform)

/-- A concrete engine whose forward registration raises. -/
def cEngineFail : Engine where
  elastixRun := fun _ _ _ =>
    .error "itk::ExceptionObject: Inputs do not occupy the same physical space"
  transformix := fun img _ => .ok img
  transformixField := fun _ _ => .ok (cDf, true)
  elastixRunSeeded := fun _ _ _ _ => .ok (cImg, cRtpUniform)

instance {e a : Type} [DecidableEq e] [DecidableEq a] :
    DecidableEq (Except e a) := fun x y =>
  match x, y with
  | .error x1, .error y1 =>
      if h : x1 = y1 then .isTrue (by rw [h])
      else .isFalse (fun hc => h (by injection hc))
  | .error _, .ok _ => .isFalse (fun hc => Except.noConfusion hc)
  | .ok _, .error _ => .isFalse (fun hc => Except.noConfusion hc)
  | .ok x1, .ok y1 =>
      if h : x1 = y1 then .isTrue (by rw [h])
      else .isFalse (fun hc => h (by injection hc))

/-- A concrete three-stage spec list repeating the same kind, mirroring the
repository test `test_setup_parameter_object_one_transform`. -/
def c6Specs : List (String × ParameterMap) :=
  [("rigid", [("Transform", ["EulerTransform"])]),
   ("rigid", [("Transform", ["EulerTransform"])]),
   ("rigid", [("Transform", ["EulerTransform"])])]

/-! ### Helper lemmas on `Except` -/

theorem except_bind_ok {ε α β : Type} (a : α) (f : α → Except ε β) :
    (Except.ok a >>= f) = f a := rfl

theorem except_bind_error {ε α β : Type} (e : ε) (f : α → Except ε β) :
    ((Except.error e : Except ε α) >>= f) = .error e := rfl

theorem except_mapError_ok {ε ε' α : Type} (a : α) (f : ε → ε') :
    (Except.ok a : Except ε α).mapError f = .ok a := rfl

theorem except_mapError_error {ε ε' α : Type} (e : ε) (f : ε → ε') :
    (Except.error e : Except ε α).mapError f = .error (f e) := rfl

theorem except_map_ok {ε α β : Type} (a : α) (f : α → β) :
    (Except.ok a : Except ε α).map f = .ok (f a) := rfl

theorem except_map_error {ε α β : Type} (e : ε) (f : α → β) :
    (Except.error e : Except ε α).map f = .error e := rfl

theorem except_pure_eq {ε α : Type} (a : α) :
    (pure a : Except ε α) = .ok a := rfl

/-! ### Helper lemmas on parameter maps -/

theorem find?_eq_none_of_key_notMem (m : ParameterMap) (k : String)
    (h : k ∉ m.map Prod.fst) : m.find? (fun kv => kv.1 = k) = none := by
  rw [List.find?_eq_none]
  intro kv hkv
  simp only [decide_eq_true_eq]
  intro hk
  exact h (List.mem_map.mpr ⟨kv, hkv, hk⟩)

theorem mapSet_of_key_notMem (m : ParameterMap) (k : String) (v : List String)
    (h : k ∉ m.map Prod.fst) : mapSet m k v = m ++ [(k, v)] := by
  unfold mapSet
  rw [find?_eq_none_of_key_notMem m k h]
  simp

theorem foldl_mapSet_disjoint (d : ParameterMap) :
    ∀ acc : ParameterMap,
    (∀ kv ∈ d, kv.1 ∉ acc.map Prod.fst) → (d.map Prod.fst).Nodup →
    d.foldl (fun m kv => mapSet m kv.1 kv.2) acc = acc ++ d := by
  induction d with
  | nil => intro acc _ _; simp
  | cons kv rest ih =>
      intro acc hdis hnd
      have hhead : kv.1 ∉ acc.map Prod.fst := hdis kv (List.mem_cons_self kv rest)
      simp only [List.foldl_cons]
      rw [mapSet_of_key_notMem acc kv.1 kv.2 hhead]
      rw [List.map_cons, List.nodup_cons] at hnd
      have hdis' : ∀ kv' ∈ rest, kv'.1 ∉ (acc ++ [(kv.1, kv.2)]).map Prod.fst := by
        intro kv' hkv'
        simp only [List.map_append, List.mem_append, List.map_cons, List.map_nil,
          List.mem_singleton]
        rintro (hmem | hk)
        · exact hdis kv' (List.mem_cons_of_mem kv hkv') hmem
        · exact hnd.1 (List.mem_map.mpr ⟨kv', hkv', hk⟩)
      rw [ih (acc ++ [(kv.1, kv.2)]) hdis' hnd.2]
      simp

theorem buildStageMap_of_nodup (kind : String) (d : ParameterMap)
    (hkind : (defaultTransformName kind).isSome)
    (hnd : (d.map Prod.fst).Nodup) :
    buildStageMap kind d = .ok d := by
  match h : defaultTransformName kind with
  | none => rw [h] at hkind; simp at hkind
  | some t =>
      have hdef : GetDefaultParameterMap kind =
          .ok [("Transform", [t]),
               ("MaximumNumberOfIterations", ["256"]),
               ("FinalBSplineInterpolationOrder", ["3"]),
               ("NumberOfResolutions", ["4"])] := by
        unfold GetDefaultParameterMap
        rw [h]
      unfold buildStageMap
      rw [hdef, except_bind_ok]
      show (pure (List.foldl (fun m kv => mapSet m kv.1 kv.2) [] d) :
        Except String ParameterMap) = .ok d
      rw [foldl_mapSet_disjoint d [] (by simp) hnd]
      simp [except_pure_eq]

theorem buildStageMap_isOk (kind : String) (d : ParameterMap) :
    (∃ m, buildStageMap kind d = .ok m) ↔ (defaultTransformName kind).isSome := by
  constructor
  · rintro ⟨m, hm⟩
    by_contra h
    have hnone : defaultTransformName kind = none :=
      Option.not_isSome_iff_eq_none.mp h
    have herr : GetDefaultParameterMap kind =
        .error ("No default parameter map \"" ++ kind ++ "\"") := by
      unfold GetDefaultParameterMap
      rw [hnone]
    unfold buildStageMap at hm
    rw [herr, except_bind_error] at hm
    exact Except.noConfusion hm
  · intro h
    match hdt : defaultTransformName kind with
    | none => rw [hdt] at h; simp at h
    | some t =>
        have hdef : GetDefaultParameterMap kind =
            .ok [("Transform", [t]),
                 ("MaximumNumberOfIterations", ["256"]),
                 ("FinalBSplineInterpolationOrder", ["3"]),
                 ("NumberOfResolutions", ["4"])] := by
          unfold GetDefaultParameterMap
          rw [hdt]
        refine ⟨d.foldl (fun m kv => mapSet m kv.1 kv.2) [], ?_⟩
        unfold buildStageMap
        rw [hdef, except_bind_ok]
        rfl

theorem setupLoop_ok_spec (specs : List (String × ParameterMap)) :
    ∀ acc ms, setupLoop specs acc = .ok ms →
      ms.length = acc.length + specs.length ∧
      (∀ i, i < acc.length → ms[i]? = acc[i]?) ∧
      (∀ i (hi : i < specs.length), ∃ b,
        ms[acc.length + i]? = some b ∧
        buildStageMap (specs.get ⟨i, hi⟩).1 (specs.get ⟨i, hi⟩).2 = .ok b) := by
  induction specs with
  | nil =>
      intro acc ms h
      unfold setupLoop at h
      injection h with h
      subst h
      exact ⟨by simp, fun i hi => rfl, fun i hi => absurd hi (by simp)⟩
  | cons s rest ih =>
      intro acc ms h
      unfold setupLoop at h
      cases hb : buildStageMap s.1 s.2 with
      | error e =>
          rw [hb, except_bind_error] at h
          exact Except.noConfusion h
      | ok m =>
          rw [hb, except_bind_ok] at h
          obtain ⟨hlen, hpre, hidx⟩ := ih (acc ++ [m]) ms h
          refine ⟨?_, ?_, ?_⟩
          · rw [hlen]; simp; omega
          · intro i hi
            have hi' : i < (acc ++ [m]).length := by simp; omega
            rw [hpre i hi', List.getElem?_append, if_pos hi]
          · intro i hi
            cases i with
            | zero =>
                refine ⟨m, ?_, hb⟩
                have hlt : acc.length < (acc ++ [m]).length := by simp
                rw [Nat.add_zero, hpre acc.length hlt]
                simp
            | succ j =>
                have hj : j < rest.length := by simpa using hi
                obtain ⟨b, hb1, hb2⟩ := hidx j hj
                refine ⟨b, ?_, hb2⟩
                have heq : (acc ++ [m]).length + j = acc.length + (j + 1) := by
                  simp; omega
                rw [heq] at hb1
                exact hb1

theorem setupLoop_ok_iff (specs : List (String × ParameterMap)) :
    ∀ acc, (∃ ms, setupLoop specs acc = .ok ms) ↔
      ∀ s ∈ specs, (defaultTransformName s.1).isSome := by
  induction specs with
  | nil =>
      intro acc
      constructor
      · intro _ s hs
        exact absurd hs (List.not_mem_nil s)
      · intro _
        exact ⟨acc, rfl⟩
  | cons s rest ih =>
      intro acc
      constructor
      · rintro ⟨ms, hms⟩ x hx
        unfold setupLoop at hms
        cases hb : buildStageMap s.1 s.2 with
        | error e =>
            rw [hb, except_bind_error] at hms
            exact Except.noConfusion hms
        | ok m =>
            rw [hb, except_bind_ok] at hms
            rcases List.mem_cons.mp hx with hx | hx
            · subst hx
              exact (buildStageMap_isOk x.1 x.2).mp ⟨m, hb⟩
            · exact (ih (acc ++ [m])).mp ⟨ms, hms⟩ x hx
      · intro hall
        obtain ⟨m, hm⟩ := (buildStageMap_isOk s.1 s.2).mpr
          (hall s (List.mem_cons_self s rest))
        obtain ⟨ms, hms⟩ := (ih (acc ++ [m])).mpr
          (fun x hx => hall x (List.mem_cons_of_mem s hx))
        refine ⟨ms, ?_⟩
        unfold setupLoop
        rw [hm, except_bind_ok]
        exact hms

theorem find?_map_replace (m : ParameterMap) (k : String) (v : List String)
    (h : (m.find? (fun kv => kv.1 = k)).isSome) :
    (m.map (fun kv => if kv.1 = k then (k, v) else kv)).find?
      (fun kv => kv.1 = k) = some (k, v) := by
  induction m with
  | nil => simp at h
  | cons a rest ih =>
      by_cases hk : a.1 = k
      · simp [hk]
      · rw [List.find?_cons_of_neg rest (by simpa using hk)] at h
        rw [List.map_cons, if_neg hk,
          List.find?_cons_of_neg _ (by simpa using hk)]
        exact ih h

theorem mapLookup_mapSet_self (m : ParameterMap) (k : String)
    (v : List String) : mapLookup (mapSet m k v) k = some v := by
  unfold mapSet mapLookup
  by_cases hc : (m.find? (fun kv => kv.1 = k)).isSome
  · rw [if_pos hc, find?_map_replace m k v hc]
    rfl
  · rw [if_neg hc, List.find?_append]
    have hnone : m.find? (fun kv => decide (kv.1 = k)) = none := by
      cases hfind : m.find? (fun kv => decide (kv.1 = k)) with
      | none => rfl
      | some x => exact absurd (by rw [hfind]; rfl) hc
    rw [hnone]
    simp

theorem mapLookup_isSome_iff (m : ParameterMap) (k : String) :
    mapLookup m k ≠ none ↔ (m.find? (fun kv => kv.1 = k)).isSome := by
  unfold mapLookup
  cases m.find? (fun kv => kv.1 = k) <;> simp

theorem mapSet_mapSet_restore (m : ParameterMap) (k : String)
    (z v : List String)
    (hpres : (m.find? (fun kv => kv.1 = k)).isSome)
    (hval : ∀ kv ∈ m, kv.1 = k → kv.2 = v) :
    mapSet (mapSet m k z) k v = m := by
  unfold mapSet
  rw [if_pos hpres]
  have hpres2 : ((m.map (fun kv => if kv.1 = k then (k, z) else kv)).find?
      (fun kv => kv.1 = k)).isSome := by
    rw [find?_map_replace m k z hpres]
    rfl
  rw [if_pos hpres2, List.map_map]
  have hcong : ∀ kv ∈ m,
      ((fun kv => if kv.1 = k then (k, v) else kv) ∘
        (fun kv => if kv.1 = k then (k, z) else kv)) kv = kv := by
    intro kv hkv
    obtain ⟨k1, v1⟩ := kv
    by_cases hk : k1 = k
    · have hv1 : v1 = v := hval (k1, v1) hkv hk
      subst hk
      subst hv1
      simp [Function.comp]
    · simp [Function.comp, hk]
  rw [List.map_congr_left hcong]
  simp

theorem SetParameter_restore (p : ParameterObject) (k : String)
    (z v : List String)
    (hpres : ∀ m ∈ p.maps, (m.find? (fun kv => kv.1 = k)).isSome)
    (hval : ∀ m ∈ p.maps, ∀ kv ∈ m, kv.1 = k → kv.2 = v) :
    (p.SetParameter k z).SetParameter k v = p := by
  obtain ⟨maps⟩ := p
  unfold ParameterObject.SetParameter
  simp only [List.map_map]
  congr 1
  have hcong : ∀ m ∈ maps,
      ((fun m => mapSet m k v) ∘ (fun m => mapSet m k z)) m = m := by
    intro m hm
    exact mapSet_mapSet_restore m k z v (hpres m hm) (hval m hm)
  rw [List.map_congr_left hcong]
  simp

theorem SetParameter_every_stage (p : ParameterObject) (k : String)
    (v : List String) :
    ∀ m ∈ (p.SetParameter k v).maps, mapLookup m k = some v := by
  intro m hm
  unfold ParameterObject.SetParameter at hm
  obtain ⟨m0, _, rfl⟩ := List.mem_map.mp hm
  exact mapLookup_mapSet_self m0 k v

theorem unlink_error_shape (fs : FS) (p : String) (e : RegError)
    (h : unlink fs p = .error e) : e = .fileNotFound p := by
  unfold unlink at h
  by_cases hc : fsLookup fs p = none
  · rw [if_pos hc] at h
    injection h with h
    exact h.symm
  · rw [if_neg hc] at h
    exact Except.noConfusion h

theorem run_registration_ok_none
    (eng : Engine) (atlas_image moving_image annotation_image : Image)
    (parameter_lists : List (String × ParameterMap)) (fs0 : FS)
    (pobj : ParameterObject) (img : Image) (rtp : ParameterObject)
    (temp : List String) (annImg : Image) (df : DeformationField) (ws : Bool)
    (hsetup : setup_parameter_object parameter_lists = .ok pobj)
    (hrun : eng.elastixRun moving_image atlas_image pobj = .ok (img, rtp))
    (hget : rtp.GetParameter 0 "FinalBSplineInterpolationOrder" = .ok temp)
    (hann : eng.transformix annotation_image
      (rtp.SetParameter "FinalBSplineInterpolationOrder" ["0"]) = .ok annImg)
    (hfield : eng.transformixField moving_image
      ((rtp.SetParameter "FinalBSplineInterpolationOrder" ["0"]).SetParameter
        "FinalBSplineInterpolationOrder" temp) = .ok (df, ws)) :
    run_registration eng atlas_image moving_image annotation_image
      parameter_lists none fs0 =
      (unlink (if ws then imwrite fs0 "deformationField.tiff" (.fld df)
               else fs0) "deformationField.tiff").map
        (fun fs =>
          (⟨img,
            (rtp.SetParameter "FinalBSplineInterpolationOrder"
              ["0"]).SetParameter "FinalBSplineInterpolationOrder" temp,
            annImg, df⟩, fs)) := by
  unfold run_registration
  rw [hsetup, except_mapError_ok, except_bind_ok, hrun, except_mapError_ok,
    except_bind_ok]
  simp only [hget, hann, hfield, except_mapError_ok, except_bind_ok,
    except_pure_eq, strayFieldPath]
  cases hu : unlink (if ws then imwrite fs0 "deformationField.tiff" (.fld df)
      else fs0) "deformationField.tiff" with
  | error e => rfl
  | ok fs => rfl

theorem run_registration_ok_some
    (eng : Engine) (atlas_image moving_image annotation_image : Image)
    (parameter_lists : List (String × ParameterMap)) (d : String) (fs0 : FS)
    (pobj : ParameterObject) (img : Image) (rtp : ParameterObject)
    (temp : List String) (annImg : Image) (df : DeformationField) (ws : Bool)
    (hsetup : setup_parameter_object parameter_lists = .ok pobj)
    (hrun : eng.elastixRun moving_image atlas_image pobj = .ok (img, rtp))
    (hget : rtp.GetParameter 0 "FinalBSplineInterpolationOrder" = .ok temp)
    (hann : eng.transformix annotation_image
      (rtp.SetParameter "FinalBSplineInterpolationOrder" ["0"]) = .ok annImg)
    (hfield : eng.transformixField moving_image
      ((rtp.SetParameter "FinalBSplineInterpolationOrder" ["0"]).SetParameter
        "FinalBSplineInterpolationOrder" temp) = .ok (df, ws)) :
    run_registration eng atlas_image moving_image annotation_image
      parameter_lists (some d) fs0 =
      (unlink
        (imwrite
          (imwrite
            (if ws then
              imwrite fs0 (d ++ "/deformationField.tiff") (.fld df)
             else fs0)
            (d ++ "/deformation_field_0.tiff") (.img (componentSlice df 1)))
          (d ++ "/deformation_field_1.tiff") (.img (componentSlice df 0)))
        (d ++ "/deformationField.tiff")).map
        (fun fs =>
          (⟨img,
            (rtp.SetParameter "FinalBSplineInterpolationOrder"
              ["0"]).SetParameter "FinalBSplineInterpolationOrder" temp,
            annImg, df⟩, fs)) := by
  unfold run_registration
  rw [hsetup, except_mapError_ok, except_bind_ok, hrun, except_mapError_ok,
    except_bind_ok]
  simp only [hget, hann, hfield, except_mapError_ok, except_bind_ok,
    except_pure_eq, strayFieldPath]
  cases hu : unlink
      (imwrite
        (imwrite
          (if ws then imwrite fs0 (d ++ "/deformationField.tiff") (.fld df)
           else fs0)
          (d ++ "/deformation_field_0.tiff") (.img (componentSlice df 1)))
        (d ++ "/deformation_field_1.tiff") (.img (componentSlice df 0)))
      (d ++ "/deformationField.tiff") with
  | error e => rfl
  | ok fs => rfl

theorem except_bind_error_source {ε α β : Type} (x : Except ε α)
    (k : α → Except ε β) (e : ε) (h : (x >>= k) = .error e)
    (hk : ∀ a, k a ≠ .error e) : x = .error e := by
  cases x with
  | error e1 =>
      rw [except_bind_error] at h
      injection h with h
      rw [h]
  | ok a =>
      rw [except_bind_ok] at h
      exact absurd h (hk a)

theorem run_registration_error_shape
    (eng : Engine) (atlas_image moving_image annotation_image : Image)
    (parameter_lists : List (String × ParameterMap))
    (output_directory : Option String) (fs0 : FS) (e : RegError)
    (h : run_registration eng atlas_image moving_image annotation_image
      parameter_lists output_directory fs0 = .error e) :
    (∃ m, e = .engineError m) ∨ (∃ p, e = .fileNotFound p) := by
  unfold run_registration at h
  cases hs : setup_parameter_object parameter_lists with
  | error e1 =>
      simp only [hs, except_mapError_error, except_bind_error] at h
      injection h with h
      exact Or.inl ⟨e1, h.symm⟩
  | ok pobj =>
      simp only [hs, except_mapError_ok, except_bind_ok] at h
      cases hr : eng.elastixRun moving_image atlas_image pobj with
      | error m =>
          simp only [hr, except_mapError_error, except_bind_error] at h
          injection h with h
          exact Or.inl ⟨m, h.symm⟩
      | ok pr =>
          simp only [hr, except_mapError_ok, except_bind_ok] at h
          cases hg : pr.2.GetParameter 0 "FinalBSplineInterpolationOrder" with
          | error m =>
              simp only [hg, except_mapError_error, except_bind_error] at h
              injection h with h
              exact Or.inl ⟨m, h.symm⟩
          | ok temp =>
              simp only [hg, except_mapError_ok, except_bind_ok] at h
              cases ha : eng.transformix annotation_image
                  (pr.2.SetParameter "FinalBSplineInterpolationOrder" ["0"]) with
              | error m =>
                  simp only [ha, except_mapError_error, except_bind_error] at h
                  injection h with h
                  exact Or.inl ⟨m, h.symm⟩
              | ok annImg =>
                  simp only [ha, except_mapError_ok, except_bind_ok] at h
                  cases hf : eng.transformixField moving_image
                      ((pr.2.SetParameter "FinalBSplineInterpolationOrder"
                        ["0"]).SetParameter "FinalBSplineInterpolationOrder"
                        temp) with
                  | error m =>
                      simp only [hf, except_mapError_error,
                        except_bind_error] at h
                      injection h with h
                      exact Or.inl ⟨m, h.symm⟩
                  | ok fld =>
                      simp only [hf, except_mapError_ok, except_bind_ok,
                        strayFieldPath] at h
                      cases output_directory with
                      | none =>
                          have hx := except_bind_error_source _ _ _ h
                            (fun a hc => Except.noConfusion hc)
                          exact Or.inr ⟨"deformationField.tiff",
                            unlink_error_shape _ _ _ hx⟩
                      | some d =>
                          have hx := except_bind_error_source _ _ _ h
                            (fun a hc => Except.noConfusion hc)
                          exact Or.inr ⟨d ++ "/deformationField.tiff",
                            unlink_error_shape _ _ _ hx⟩

theorem run_registration_propagates_elastix_error
    (eng : Engine) (atlas_image moving_image annotation_image : Image)
    (parameter_lists : List (String × ParameterMap))
    (output_directory : Option String) (fs0 : FS)
    (pobj : ParameterObject) (msg : String)
    (hsetup : setup_parameter_object parameter_lists = .ok pobj)
    (hrun : eng.elastixRun moving_image atlas_image pobj = .error msg) :
    run_registration eng atlas_image moving_image annotation_image
      parameter_lists output_directory fs0 = .error (.engineError msg) := by
  unfold run_registration
  rw [hsetup, except_mapError_ok, except_bind_ok, hrun, except_mapError_error,
    except_bind_error]

theorem string_append_right_inj (d a b : String) : d ++ a = d ++ b ↔ a = b := by
  constructor
  · intro h
    have hd := congrArg String.data h
    simp only [String.data_append] at hd
    exact String.ext (List.append_cancel_left hd)
  · intro h
    rw [h]

theorem find?_filter_ne (fs : FS) (p q : String) (h : q ≠ p) :
    (fs.filter (fun e => e.1 ≠ p)).find? (fun e => e.1 = q) =
      fs.find? (fun e => e.1 = q) := by
  induction fs with
  | nil => rfl
  | cons a rest ih =>
      by_cases hk : a.1 = p
      · have hk' : ¬(a.1 = q) := by
          rw [hk]
          exact fun hc => h hc.symm
        rw [List.filter_cons_of_neg (by simpa using hk),
          List.find?_cons_of_neg _ (by simpa using hk')]
        exact ih
      · rw [List.filter_cons_of_pos (by simpa using hk)]
        by_cases hq : a.1 = q
        · rw [List.find?_cons_of_pos _ (by simpa using hq),
            List.find?_cons_of_pos _ (by simpa using hq)]
        · rw [List.find?_cons_of_neg _ (by simpa using hq),
            List.find?_cons_of_neg _ (by simpa using hq)]
          exact ih

theorem fsLookup_imwrite_self (fs : FS) (p : String) (data : FileData) :
    fsLookup (imwrite fs p data) p = some data := by
  unfold fsLookup imwrite
  rw [List.find?_cons_of_pos _ (by simp)]
  rfl

theorem fsLookup_imwrite_other (fs : FS) (p q : String) (data : FileData)
    (h : q ≠ p) : fsLookup (imwrite fs p data) q = fsLookup fs q := by
  unfold fsLookup imwrite
  rw [List.find?_cons_of_neg _ (by simpa using fun hc => h hc.symm),
    find?_filter_ne fs p q h]

theorem fsLookup_filter_self (fs : FS) (p : String) :
    fsLookup (fs.filter (fun e => e.1 ≠ p)) p = none := by
  unfold fsLookup
  rw [List.find?_eq_none.mpr]
  · rfl
  · intro x hx
    have := (List.mem_filter.mp hx).2
    simpa using this

theorem unlink_ok_of_present (fs : FS) (p : String)
    (h : fsLookup fs p ≠ none) :
    unlink fs p = .ok (fs.filter (fun e => e.1 ≠ p)) := by
  unfold unlink
  rw [if_neg h]

theorem unlink_error_of_absent (fs : FS) (p : String)
    (h : fsLookup fs p = none) :
    unlink fs p = .error (.fileNotFound p) := by
  unfold unlink
  rw [if_pos h]

end BgReg

namespace BgRegGui

theorem clampTo_bounds {α : Type} [LinearOrder α] (lo hi v : α)
    (h : lo ≤ hi) : lo ≤ clampTo lo hi v ∧ clampTo lo hi v ≤ hi := by
  unfold clampTo
  exact ⟨le_max_left lo (min v hi), max_le h (min_le_right v hi)⟩

theorem applyAction_inBounds (w : AdjustMovingImageView) (a : UserAction)
    (h : inBounds w) : inBounds (applyAction w a) := by
  obtain ⟨h1, h2, h3, h4, h5, h6⟩ := h
  cases a with
  | setX v =>
      have hb := clampTo_bounds (α := Int) (-2000) 2000 v (by norm_num)
      exact ⟨hb.1, hb.2, h3, h4, h5, h6⟩
  | setY v =>
      have hb := clampTo_bounds (α := Int) (-2000) 2000 v (by norm_num)
      exact ⟨h1, h2, hb.1, hb.2, h5, h6⟩
  | setRotation v =>
      have hb := clampTo_bounds (α := Rat) (-360) 360 v (by norm_num)
      exact ⟨h1, h2, h3, h4, hb.1, hb.2⟩
  | rotStepUp =>
      have hb := clampTo_bounds (α := Rat) (-360) 360 (w.rot + 1 / 2)
        (by norm_num)
      exact ⟨h1, h2, h3, h4, hb.1, hb.2⟩
  | rotStepDown =>
      have hb := clampTo_bounds (α := Rat) (-360) 360 (w.rot - 1 / 2)
        (by norm_num)
      exact ⟨h1, h2, h3, h4, hb.1, hb.2⟩
  | resetClick =>
      have hbx := clampTo_bounds (α := Int) (-2000) 2000 0 (by norm_num)
      have hbr := clampTo_bounds (α := Rat) (-360) 360 0 (by norm_num)
      exact ⟨hbx.1, hbx.2, hbx.1, hbx.2, hbr.1, hbr.2⟩

theorem foldl_applyAction_inBounds (l : List UserAction) :
    ∀ w : AdjustMovingImageView, inBounds w →
      inBounds (l.foldl applyAction w) := by
  induction l with
  | nil => intro w h; exact h
  | cons a rest ih =>
      intro w h
      exact ih (applyAction w a) (applyAction_inBounds w a h)

theorem runActions_inBounds (l : List UserAction) :
    inBounds (runActions l) := by
  unfold runActions
  refine foldl_applyAction_inBounds l initView ?_
  unfold inBounds initView
  norm_num

end BgRegGui

namespace BgReg

theorem setup_parameter_object_ok_spec
    (parameter_lists : List (String × ParameterMap)) (pobj : ParameterObject)
    (hok : setup_parameter_object parameter_lists = .ok pobj) :
    pobj.maps.length = parameter_lists.length ∧
    ∀ i (hi : i < parameter_lists.length),
      ((parameter_lists.get ⟨i, hi⟩).2.map Prod.fst).Nodup →
      pobj.maps[i]? = some (parameter_lists.get ⟨i, hi⟩).2 := by
  unfold setup_parameter_object at hok
  cases hl : setupLoop parameter_lists [] with
  | error e =>
      rw [hl, except_map_error] at hok
      exact Except.noConfusion hok
  | ok ms =>
      rw [hl, except_map_ok] at hok
      injection hok with hok
      obtain ⟨hlen, _, hidx⟩ := setupLoop_ok_spec parameter_lists [] ms hl
      subst hok
      refine ⟨by simpa using hlen, ?_⟩
      intro i hi hnd
      obtain ⟨b, hb1, hb2⟩ := hidx i hi
      have hknown : (defaultTransformName
          (parameter_lists.get ⟨i, hi⟩).1).isSome :=
        (buildStageMap_isOk _ _).mp ⟨b, hb2⟩
      rw [buildStageMap_of_nodup _ _ hknown hnd] at hb2
      injection hb2 with hb2
      subst hb2
      simpa using hb1

theorem setup_parameter_object_ok_iff
    (parameter_lists : List (String × ParameterMap)) :
    (∃ pobj, setup_parameter_object parameter_lists = .ok pobj) ↔
      ∀ s ∈ parameter_lists, (defaultTransformName s.1).isSome := by
  unfold setup_parameter_object
  rw [← setupLoop_ok_iff parameter_lists []]
  constructor
  · rintro ⟨pobj, hp⟩
    cases hl : setupLoop parameter_lists [] with
    | error e =>
        rw [hl, except_map_error] at hp
        exact Except.noConfusion hp
    | ok ms => exact ⟨ms, rfl⟩
  · rintro ⟨ms, hms⟩
    exact ⟨⟨ms⟩, by rw [hms, except_map_ok]⟩

/-- C4: in `setup_parameter_object` a caller-supplied option map fully
replaces the engine's default map for the kind (the default is fetched,
cleared and refilled with exactly the supplied entries, not merged), and —
in the superseded variant, where stages may be built without any
caller-supplied dictionary — the rigid and bspline stage maps equal the
engine's default maps, unmodified. -/
theorem c4_explicit_map_fully_replaces_default
    (parameter_lists : List (String × ParameterMap)) (pobj : ParameterObject)
    (hok : setup_parameter_object parameter_lists = .ok pobj)
    (i : Nat) (hi : i < parameter_lists.length)
    (hdict : ((parameter_lists.get ⟨i, hi⟩).2.map Prod.fst).Nodup) :
    pobj.maps[i]? = some (parameter_lists.get ⟨i, hi⟩).2 ∧
    ∀ (its : String) (dr da db : ParameterMap),
      GetDefaultParameterMap "rigid" = .ok dr →
      GetDefaultParameterMap "affine" = .ok da →
      GetDefaultParameterMap "bspline" = .ok db →
      BgRegV0.setup_parameter_object true true true its =
        .ok ⟨[dr, mapSet da "MaximumNumberOfIterations" [its], db]⟩ := by
  refine ⟨(setup_parameter_object_ok_spec parameter_lists pobj hok).2 i hi
    hdict, ?_⟩
  intro its dr da db hdr hda hdb
  have hdr2 : dr = [("Transform", ["EulerTransform"]),
      ("MaximumNumberOfIterations", ["256"]),
      ("FinalBSplineInterpolationOrder", ["3"]),
      ("NumberOfResolutions", ["4"])] := by
    have : GetDefaultParameterMap "rigid" =
        .ok [("Transform", ["EulerTransform"]),
             ("MaximumNumberOfIterations", ["256"]),
             ("FinalBSplineInterpolationOrder", ["3"]),
             ("NumberOfResolutions", ["4"])] := by rfl
    rw [this] at hdr
    injection hdr with hdr
    exact hdr.symm
  have hda2 : da = [("Transform", ["AffineTransform"]),
      ("MaximumNumberOfIterations", ["256"]),
      ("FinalBSplineInterpolationOrder", ["3"]),
      ("NumberOfResolutions", ["4"])] := by
    have : GetDefaultParameterMap "affine" =
        .ok [("Transform", ["AffineTransform"]),
             ("MaximumNumberOfIterations", ["256"]),
             ("FinalBSplineInterpolationOrder", ["3"]),
             ("NumberOfResolutions", ["4"])] := by rfl
    rw [this] at hda
    injection hda with hda
    exact hda.symm
  have hdb2 : db = [("Transform", ["BSplineTransform"]),
      ("MaximumNumberOfIterations", ["256"]),
      ("FinalBSplineInterpolationOrder", ["3"]),
      ("NumberOfResolutions", ["4"])] := by
    have : GetDefaultParameterMap "bspline" =
        .ok [("Transform", ["BSplineTransform"]),
             ("MaximumNumberOfIterations", ["256"]),
             ("FinalBSplineInterpolationOrder", ["3"]),
             ("NumberOfResolutions", ["4"])] := by rfl
    rw [this] at hdb
    injection hdb with hdb
    exact hdb.symm
  subst hdr2
  subst hda2
  subst hdb2
  rfl

/-- Witness for C4 at a concrete input: a single rigid spec with an explicit
option map yields exactly that map; the superseded variant with all three
stages enabled keeps the rigid and bspline defaults unmodified. -/
theorem c4_witness :
    (⟨[[("Transform", ["EulerTransform"])]]⟩ : ParameterObject).maps[0]? =
      some [("Transform", ["EulerTransform"])] ∧
    BgRegV0.setup_parameter_object true true true "1024" =
      .ok ⟨[[("Transform", ["EulerTransform"]),
             ("MaximumNumberOfIterations", ["256"]),
             ("FinalBSplineInterpolationOrder", ["3"]),
             ("NumberOfResolutions", ["4"])],
            mapSet [("Transform", ["AffineTransform"]),
             ("MaximumNumberOfIterations", ["256"]),
             ("FinalBSplineInterpolationOrder", ["3"]),
             ("NumberOfResolutions", ["4"])] "MaximumNumberOfIterations"
              ["1024"],
            [("Transform", ["BSplineTransform"]),
             ("MaximumNumberOfIterations", ["256"]),
             ("FinalBSplineInterpolationOrder", ["3"]),
             ("NumberOfResolutions", ["4"])]]⟩ := by
  have h := c4_explicit_map_fully_replaces_default cSpecs
    ⟨[[("Transform", ["EulerTransform"])]]⟩ (by decide) 0 (by decide)
    (by decide)
  exact ⟨h.1, h.2 "1024" _ _ _ rfl rfl rfl⟩

/-- C5 counterexample: supplying an explicit option map for an unknown
transform kind DOES trigger the failure, contrary to the claim — the
engine's default map is fetched before the options are applied, so the
unknown-kind error fires regardless of the supplied options. -/
theorem c5_counterexample :
    setup_parameter_object
        [("unknown_kind", [("Transform", ["XTransform"])])] =
      .error "No default parameter map \"unknown_kind\"" := by decide

/-- C5 (amended): `setup_parameter_object` succeeds exactly when every
spec's transform kind is one the engine documents; an unknown kind fails
regardless of whether an explicit option map is supplied for it, since the
default map is always resolved (and then cleared) first, and the failure is
the engine's own unknown-kind error (this layer defines no
ConfigurationError of its own). -/
theorem c5_amended_unknown_kind_always_fails
    (parameter_lists : List (String × ParameterMap)) :
    (∃ pobj, setup_parameter_object parameter_lists = .ok pobj) ↔
      ∀ s ∈ parameter_lists, (defaultTransformName s.1).isSome :=
  setup_parameter_object_ok_iff parameter_lists

/-- C6: for every spec list whose kinds the engine knows,
`setup_parameter_object` yields one parameter map per input spec, in input
order (the empty list yields a zero-stage object), and a stage whose
dictionary carries an explicit `Transform` entry produces a map whose
`Transform` entry equals that override. -/
theorem c6_stage_count_order_transform
    (parameter_lists : List (String × ParameterMap))
    (hknown : ∀ s ∈ parameter_lists, (defaultTransformName s.1).isSome) :
    setup_parameter_object [] = .ok ⟨[]⟩ ∧
    ∃ pobj, setup_parameter_object parameter_lists = .ok pobj ∧
      pobj.maps.length = parameter_lists.length ∧
      (∀ i (hi : i < parameter_lists.length),
        ((parameter_lists.get ⟨i, hi⟩).2.map Prod.fst).Nodup →
        pobj.maps[i]? = some (parameter_lists.get ⟨i, hi⟩).2) ∧
      (∀ i (hi : i < parameter_lists.length) (v : List String),
        ((parameter_lists.get ⟨i, hi⟩).2.map Prod.fst).Nodup →
        mapLookup (parameter_lists.get ⟨i, hi⟩).2 "Transform" = some v →
        ∃ m, pobj.maps[i]? = some m ∧ mapLookup m "Transform" = some v) := by
  refine ⟨rfl, ?_⟩
  obtain ⟨pobj, hp⟩ :=
    (setup_parameter_object_ok_iff parameter_lists).mpr hknown
  obtain ⟨hlen, hidx⟩ := setup_parameter_object_ok_spec parameter_lists
    pobj hp
  refine ⟨pobj, hp, hlen, hidx, ?_⟩
  intro i hi v hnd hv
  exact ⟨_, hidx i hi hnd, hv⟩

/-- Witness for C6 at a concrete input: three repeated rigid specs yield
three stages. -/
theorem c6_witness :
    (setup_parameter_object [] = .ok ⟨[]⟩) ∧
    ∃ pobj, setup_parameter_object c6Specs = .ok pobj ∧
      pobj.maps.length = 3 := by
  obtain ⟨h0, pobj, hp, hlen, _, _⟩ :=
    c6_stage_count_order_transform c6Specs (by decide)
  exact ⟨h0, pobj, hp, by rw [hlen]; rfl⟩

end BgReg

namespace BgRegGui

/-- C10: every adjustment event the form emits carries the CURRENT values of
all three controls (whichever single control changed), with the x and y
offsets clamped to [-2000, 2000] and the rotation clamped to [-360, 360]
degrees, and the rotation box steps in 0.5-degree increments. -/
theorem c10_adjust_event_carries_clamped_values (l : List UserAction) :
    emitAdjustImage (runActions l) =
      ((runActions l).x, (runActions l).y, (runActions l).rot) ∧
    -2000 ≤ (runActions l).x ∧ (runActions l).x ≤ 2000 ∧
    -2000 ≤ (runActions l).y ∧ (runActions l).y ≤ 2000 ∧
    -360 ≤ (runActions l).rot ∧ (runActions l).rot ≤ 360 ∧
    ∀ w : AdjustMovingImageView,
      (applyAction w .rotStepUp).rot = clampTo (-360) 360 (w.rot + 1 / 2) ∧
      (applyAction w .rotStepDown).rot =
        clampTo (-360) 360 (w.rot - 1 / 2) := by
  obtain ⟨h1, h2, h3, h4, h5, h6⟩ := runActions_inBounds l
  exact ⟨rfl, h1, h2, h3, h4, h5, h6, fun w => ⟨rfl, rfl⟩⟩

end BgRegGui

namespace BgReg

theorem except_bind_eq_ok {ε α β : Type} (x : Except ε α)
    (k : α → Except ε β) (b : β) (h : (x >>= k) = .ok b) :
    ∃ a, x = .ok a ∧ k a = .ok b := by
  cases x with
  | error e =>
      rw [except_bind_error] at h
      exact Except.noConfusion h
  | ok a =>
      rw [except_bind_ok] at h
      exact ⟨a, rfl, h⟩

theorem unlink_ok_shape (fs fs' : FS) (p : String)
    (h : unlink fs p = .ok fs') :
    fs' = fs.filter (fun e => e.1 ≠ p) := by
  unfold unlink at h
  by_cases hc : fsLookup fs p = none
  · rw [if_pos hc] at h
    exact Except.noConfusion h
  · rw [if_neg hc] at h
    injection h with h
    exact h.symm

theorem callerAxisComponent_zero (df : DeformationField) :
    callerAxisComponent df 0 = componentSlice df 1 := rfl

theorem callerAxisComponent_one (df : DeformationField) :
    callerAxisComponent df 1 = componentSlice df 0 := rfl

theorem run_registration_ok_fields
    (eng : Engine) (atlas_image moving_image annotation_image : Image)
    (parameter_lists : List (String × ParameterMap))
    (output_directory : Option String) (fs0 : FS)
    (pobj : ParameterObject) (img : Image) (rtp : ParameterObject)
    (temp : List String) (annImg : Image) (df : DeformationField) (ws : Bool)
    (res : RunResult) (fs : FS)
    (hsetup : setup_parameter_object parameter_lists = .ok pobj)
    (hrun : eng.elastixRun moving_image atlas_image pobj = .ok (img, rtp))
    (hget : rtp.GetParameter 0 "FinalBSplineInterpolationOrder" = .ok temp)
    (hann : eng.transformix annotation_image
      (rtp.SetParameter "FinalBSplineInterpolationOrder" ["0"]) = .ok annImg)
    (hfield : eng.transformixField moving_image
      ((rtp.SetParameter "FinalBSplineInterpolationOrder" ["0"]).SetParameter
        "FinalBSplineInterpolationOrder" temp) = .ok (df, ws))
    (hok : run_registration eng atlas_image moving_image annotation_image
      parameter_lists output_directory fs0 = .ok (res, fs)) :
    res = ⟨img,
      (rtp.SetParameter "FinalBSplineInterpolationOrder" ["0"]).SetParameter
        "FinalBSplineInterpolationOrder" temp, annImg, df⟩ := by
  cases output_directory with
  | none =>
      rw [run_registration_ok_none eng atlas_image moving_image
        annotation_image parameter_lists fs0 pobj img rtp temp annImg df ws
        hsetup hrun hget hann hfield] at hok
      cases hu : unlink (if ws then imwrite fs0 "deformationField.tiff"
          (.fld df) else fs0) "deformationField.tiff" with
      | error e =>
          rw [hu, except_map_error] at hok
          exact Except.noConfusion hok
      | ok fsu =>
          rw [hu, except_map_ok] at hok
          injection hok with hok
          injection hok with hok1 hok2
          exact hok1.symm
  | some d =>
      rw [run_registration_ok_some eng atlas_image moving_image
        annotation_image parameter_lists d fs0 pobj img rtp temp annImg df ws
        hsetup hrun hget hann hfield] at hok
      cases hu : unlink
          (imwrite
            (imwrite
              (if ws then imwrite fs0 (d ++ "/deformationField.tiff")
                (.fld df) else fs0)
              (d ++ "/deformation_field_0.tiff")
              (.img (componentSlice df 1)))
            (d ++ "/deformation_field_1.tiff")
            (.img (componentSlice df 0)))
          (d ++ "/deformationField.tiff") with
      | error e =>
          rw [hu, except_map_error] at hok
          exact Except.noConfusion hok
      | ok fsu =>
          rw [hu, except_map_ok] at hok
          injection hok with hok
          injection hok with hok1 hok2
          exact hok1.symm

/-- C1 counterexample: with an engine whose two transform stages hold
DIFFERENT `FinalBSplineInterpolationOrder` values ("3" at stage 0, "1" at
stage 1), a successful `run_registration` returns a transform whose stage 1
order is "3", not the "1" it held before the override — the code saves only
stage 0's value and writes it back into every stage. -/
theorem c1_counterexample :
    (run_registration cEngine cImg cImg cImg cSpecs none []).map
        (fun r => r.1.result_transform_parameters.GetParameter 1
          "FinalBSplineInterpolationOrder") = .ok (.ok ["3"]) ∧
    cRtp.GetParameter 1 "FinalBSplineInterpolationOrder" = .ok ["1"] := by
  decide

/-- C1 (amended): the annotation-transform step sets
`FinalBSplineInterpolationOrder` to "0" in EVERY stage, but it saves only
stage 0's value and then writes that single saved value back into every
stage; the transform object is therefore returned unmodified exactly when
every stage's entry initially held stage 0's value (as with the engine's
uniform defaults), and with differing per-stage values the restore
overwrites the other stages. -/
theorem c1_amended_interp_order_save_restore
    (eng : Engine) (atlas_image moving_image annotation_image : Image)
    (parameter_lists : List (String × ParameterMap))
    (output_directory : Option String) (fs0 : FS)
    (pobj : ParameterObject) (img : Image) (rtp : ParameterObject)
    (annImg : Image) (df : DeformationField) (ws : Bool) (v : List String)
    (hsetup : setup_parameter_object parameter_lists = .ok pobj)
    (hrun : eng.elastixRun moving_image atlas_image pobj = .ok (img, rtp))
    (hget : rtp.GetParameter 0 "FinalBSplineInterpolationOrder" = .ok v)
    (hpres : ∀ m ∈ rtp.maps,
      (m.find? (fun kv => kv.1 = "FinalBSplineInterpolationOrder")).isSome)
    (huniform : ∀ m ∈ rtp.maps, ∀ kv ∈ m,
      kv.1 = "FinalBSplineInterpolationOrder" → kv.2 = v)
    (hann : eng.transformix annotation_image
      (rtp.SetParameter "FinalBSplineInterpolationOrder" ["0"]) = .ok annImg)
    (hfield : eng.transformixField moving_image
      ((rtp.SetParameter "FinalBSplineInterpolationOrder" ["0"]).SetParameter
        "FinalBSplineInterpolationOrder" v) = .ok (df, ws)) :
    (∀ m ∈ (rtp.SetParameter "FinalBSplineInterpolationOrder" ["0"]).maps,
      mapLookup m "FinalBSplineInterpolationOrder" = some ["0"]) ∧
    (rtp.SetParameter "FinalBSplineInterpolationOrder" ["0"]).SetParameter
      "FinalBSplineInterpolationOrder" v = rtp ∧
    ∀ res fs, run_registration eng atlas_image moving_image annotation_image
        parameter_lists output_directory fs0 = .ok (res, fs) →
      res.result_transform_parameters = rtp := by
  have hrestore := SetParameter_restore rtp "FinalBSplineInterpolationOrder"
    ["0"] v hpres huniform
  refine ⟨SetParameter_every_stage rtp _ _, hrestore, ?_⟩
  intro res fs hok
  have hres := run_registration_ok_fields eng atlas_image moving_image
    annotation_image parameter_lists output_directory fs0 pobj img rtp v
    annImg df ws res fs hsetup hrun hget hann hfield hok
  rw [hres]
  exact hrestore

/-- Witness for the amended C1 at a concrete engine whose stages share the
order value "3": the double override restores the object exactly, and the
returned transform is the engine's. -/
theorem c1_witness :
    ((cRtpUniform.SetParameter "FinalBSplineInterpolationOrder"
      ["0"]).SetParameter "FinalBSplineInterpolationOrder" ["3"] =
        cRtpUniform) ∧
    (⟨cImg, cRtpUniform, cImg, cDf⟩ : RunResult).result_transform_parameters
      = cRtpUniform := by
  have h := c1_amended_interp_order_save_restore cEngineUniform cImg cImg
    cImg cSpecs none [] ⟨[[("Transform", ["EulerTransform"])]]⟩ cImg
    cRtpUniform cImg cDf true ["3"] (by decide) (by decide) (by decide)
    (by decide) (by decide) (by decide) (by decide)
  exact ⟨h.2.1, h.2.2 ⟨cImg, cRtpUniform, cImg, cDf⟩ [] (by decide)⟩

/-- C2 counterexample: at a concrete engine whose deformation field has
distinguishable components, the field value `run_registration` returns is
the engine's output `[[(1, 2)]]` itself, not its permutation `[[(2, 1)]]`:
no axis permutation is applied to the returned value. -/
theorem c2_counterexample :
    (run_registration cEngine cImg cImg cImg cSpecs none []).map
        (fun r => r.1.deformation_field) = .ok cDf ∧
    spec_permuted_field cDf = [[(2, 1)]] ∧
    cDf ≠ [[(2, 1)]] := by
  decide

/-- C2 (amended): the deformation field is returned to the caller exactly as
the engine produced it, in the engine's axis order, with no permutation
applied; the component swap appears only in the two files written in
output-directory mode. -/
theorem c2_amended_field_returned_unpermuted
    (eng : Engine) (atlas_image moving_image annotation_image : Image)
    (parameter_lists : List (String × ParameterMap))
    (output_directory : Option String) (fs0 : FS)
    (pobj : ParameterObject) (img : Image) (rtp : ParameterObject)
    (temp : List String) (annImg : Image) (df : DeformationField) (ws : Bool)
    (hsetup : setup_parameter_object parameter_lists = .ok pobj)
    (hrun : eng.elastixRun moving_image atlas_image pobj = .ok (img, rtp))
    (hget : rtp.GetParameter 0 "FinalBSplineInterpolationOrder" = .ok temp)
    (hann : eng.transformix annotation_image
      (rtp.SetParameter "FinalBSplineInterpolationOrder" ["0"]) = .ok annImg)
    (hfield : eng.transformixField moving_image
      ((rtp.SetParameter "FinalBSplineInterpolationOrder" ["0"]).SetParameter
        "FinalBSplineInterpolationOrder" temp) = .ok (df, ws)) :
    ∀ res fs, run_registration eng atlas_image moving_image annotation_image
        parameter_lists output_directory fs0 = .ok (res, fs) →
      res.deformation_field = df := by
  intro res fs hok
  have hres := run_registration_ok_fields eng atlas_image moving_image
    annotation_image parameter_lists output_directory fs0 pobj img rtp temp
    annImg df ws res fs hsetup hrun hget hann hfield hok
  rw [hres]

/-- Witness for the amended C2: the concrete run returns the engine's field
`cDf` unchanged. -/
theorem c2_witness :
    (⟨cImg, cRtpUniform, cImg, cDf⟩ : RunResult).deformation_field = cDf := by
  have h := c2_amended_field_returned_unpermuted cEngineUniform cImg cImg
    cImg cSpecs none [] ⟨[[("Transform", ["EulerTransform"])]]⟩ cImg
    cRtpUniform ["3"] cImg cDf true (by decide) (by decide) (by decide)
    (by decide) (by decide)
  exact h ⟨cImg, cRtpUniform, cImg, cDf⟩ [] (by decide)

/-- C3 counterexample: with an engine that does not leave the stray
default-named artifact behind, the cleanup `os.unlink` raises
`FileNotFoundError` and `run_registration` fails — the cleanup failure is
not best-effort and masks the otherwise successful run. -/
theorem c3_counterexample :
    run_registration cEngineNoStray cImg cImg cImg cSpecs none [] =
      .error (.fileNotFound "deformationField.tiff") := by
  decide

/-- C3 (amended): in both the output-directory and working-directory modes,
whenever `run_registration` returns successfully the stray default-named
artifact `deformationField.tiff` is gone from the active directory; but the
cleanup is NOT best-effort: when the stray file does not exist,
`os.unlink` raises and the whole call fails with that error, masking the
successful registration. -/
theorem c3_amended_stray_deleted_but_unlink_raises
    (eng : Engine) (atlas_image moving_image annotation_image : Image)
    (parameter_lists : List (String × ParameterMap))
    (output_directory : Option String) (fs0 : FS)
    (pobj : ParameterObject) (img : Image) (rtp : ParameterObject)
    (temp : List String) (annImg : Image) (df : DeformationField) (ws : Bool)
    (hsetup : setup_parameter_object parameter_lists = .ok pobj)
    (hrun : eng.elastixRun moving_image atlas_image pobj = .ok (img, rtp))
    (hget : rtp.GetParameter 0 "FinalBSplineInterpolationOrder" = .ok temp)
    (hann : eng.transformix annotation_image
      (rtp.SetParameter "FinalBSplineInterpolationOrder" ["0"]) = .ok annImg)
    (hfield : eng.transformixField moving_image
      ((rtp.SetParameter "FinalBSplineInterpolationOrder" ["0"]).SetParameter
        "FinalBSplineInterpolationOrder" temp) = .ok (df, ws)) :
    (∀ res fs, run_registration eng atlas_image moving_image annotation_image
        parameter_lists output_directory fs0 = .ok (res, fs) →
      fsLookup fs (strayFieldPath output_directory) = none) ∧
    (ws = false → fsLookup fs0 (strayFieldPath output_directory) = none →
      run_registration eng atlas_image moving_image annotation_image
        parameter_lists output_directory fs0 =
        .error (.fileNotFound (strayFieldPath output_directory))) := by
  constructor
  · intro res fs hok
    cases output_directory with
    | none =>
        rw [run_registration_ok_none eng atlas_image moving_image
          annotation_image parameter_lists fs0 pobj img rtp temp annImg df ws
          hsetup hrun hget hann hfield] at hok
        cases hu : unlink (if ws then imwrite fs0 "deformationField.tiff"
            (.fld df) else fs0) "deformationField.tiff" with
        | error e =>
            rw [hu, except_map_error] at hok
            exact Except.noConfusion hok
        | ok fsu =>
            rw [hu, except_map_ok] at hok
            injection hok with hok
            injection hok with hok1 hok2
            rw [← hok2, unlink_ok_shape _ _ _ hu]
            exact fsLookup_filter_self _ _
    | some d =>
        rw [run_registration_ok_some eng atlas_image moving_image
          annotation_image parameter_lists d fs0 pobj img rtp temp annImg df
          ws hsetup hrun hget hann hfield] at hok
        cases hu : unlink
            (imwrite
              (imwrite
                (if ws then imwrite fs0 (d ++ "/deformationField.tiff")
                  (.fld df) else fs0)
                (d ++ "/deformation_field_0.tiff")
                (.img (componentSlice df 1)))
              (d ++ "/deformation_field_1.tiff")
              (.img (componentSlice df 0)))
            (d ++ "/deformationField.tiff") with
        | error e =>
            rw [hu, except_map_error] at hok
            exact Except.noConfusion hok
        | ok fsu =>
            rw [hu, except_map_ok] at hok
            injection hok with hok
            injection hok with hok1 hok2
            rw [← hok2, unlink_ok_shape _ _ _ hu]
            exact fsLookup_filter_self _ _
  · intro hws habsent
    subst hws
    cases output_directory with
    | none =>
        rw [run_registration_ok_none eng atlas_image moving_image
          annotation_image parameter_lists fs0 pobj img rtp temp annImg df
          false hsetup hrun hget hann hfield]
        rw [if_neg (by simp)]
        rw [unlink_error_of_absent fs0 "deformationField.tiff" habsent,
          except_map_error]
        rfl
    | some d =>
        rw [run_registration_ok_some eng atlas_image moving_image
          annotation_image parameter_lists d fs0 pobj img rtp temp annImg df
          false hsetup hrun hget hann hfield]
        rw [if_neg (by simp)]
        have hne1 : d ++ "/deformationField.tiff" ≠
            d ++ "/deformation_field_1.tiff" := by
          intro hc
          have := (string_append_right_inj d _ _).mp hc
          exact absurd this (by decide)
        have hne0 : d ++ "/deformationField.tiff" ≠
            d ++ "/deformation_field_0.tiff" := by
          intro hc
          have := (string_append_right_inj d _ _).mp hc
          exact absurd this (by decide)
        have habs2 : fsLookup
            (imwrite
              (imwrite fs0 (d ++ "/deformation_field_0.tiff")
                (.img (componentSlice df 1)))
              (d ++ "/deformation_field_1.tiff")
              (.img (componentSlice df 0)))
            (d ++ "/deformationField.tiff") = none := by
          rw [fsLookup_imwrite_other _ _ _ _ hne1,
            fsLookup_imwrite_other _ _ _ _ hne0]
          exact habsent
        rw [unlink_error_of_absent _ _ habs2, except_map_error]
        rfl

/-- Witness for the amended C3: a concrete successful run (engine wrote the
stray artifact) leaves no stray file behind. -/
theorem c3_witness :
    fsLookup ([] : FS) (strayFieldPath none) = none := by
  have h := c3_amended_stray_deleted_but_unlink_raises cEngineUniform cImg
    cImg cImg cSpecs none [] ⟨[[("Transform", ["EulerTransform"])]]⟩ cImg
    cRtpUniform ["3"] cImg cDf true (by decide) (by decide) (by decide)
    (by decide) (by decide)
  exact h.1 ⟨cImg, cRtpUniform, cImg, cDf⟩ [] (by decide)

/-- C7 counterexample: when the engine raises during the forward
registration call, `run_registration` propagates the raw engine exception:
the result is the engine's own error carrying the diagnostic, which is not
the `RegistrationError` wrapper the claim describes. -/
theorem c7_counterexample :
    run_registration cEngineFail cImg cImg cImg cSpecs none [] =
      .error (.engineError
        "itk::ExceptionObject: Inputs do not occupy the same physical space")
    ∧ RegError.engineError
        "itk::ExceptionObject: Inputs do not occupy the same physical space"
      ≠ RegError.registrationError
        "itk::ExceptionObject: Inputs do not occupy the same physical space"
    := by
  decide

/-- C7 (amended): `run_registration` neither catches nor wraps engine
failures: a forward-registration failure propagates to the caller unchanged
as the raw engine exception with its diagnostic (not retried, not
swallowed), and no error the function ever raises is a `RegistrationError`
or `InversionError` wrapper — every raised error is either a raw engine
error or the cleanup's `FileNotFoundError`. -/
theorem c7_amended_engine_errors_propagate_raw
    (eng : Engine) (atlas_image moving_image annotation_image : Image)
    (parameter_lists : List (String × ParameterMap))
    (output_directory : Option String) (fs0 : FS)
    (pobj : ParameterObject) (msg : String)
    (hsetup : setup_parameter_object parameter_lists = .ok pobj)
    (hrun : eng.elastixRun moving_image atlas_image pobj = .error msg) :
    run_registration eng atlas_image moving_image annotation_image
      parameter_lists output_directory fs0 = .error (.engineError msg) ∧
    ∀ (eng2 : Engine) (a2 m2 n2 : Image)
      (pl2 : List (String × ParameterMap)) (od2 : Option String) (fs2 : FS)
      (e : RegError),
      run_registration eng2 a2 m2 n2 pl2 od2 fs2 = .error e →
      (∃ s, e = .engineError s) ∨ (∃ p, e = .fileNotFound p) := by
  refine ⟨run_registration_propagates_elastix_error eng atlas_image
    moving_image annotation_image parameter_lists output_directory fs0 pobj
    msg hsetup hrun, ?_⟩
  intro eng2 a2 m2 n2 pl2 od2 fs2 e he
  exact run_registration_error_shape eng2 a2 m2 n2 pl2 od2 fs2 e he

/-- Witness for the amended C7 at a concrete failing engine. -/
theorem c7_witness :
    run_registration cEngineFail cImg cImg cImg c6Specs none [] =
      .error (.engineError
        "itk::ExceptionObject: Inputs do not occupy the same physical space")
    := by
  have h := c7_amended_engine_errors_propagate_raw cEngineFail cImg cImg
    cImg c6Specs none []
    ⟨[[("Transform", ["EulerTransform"])],
      [("Transform", ["EulerTransform"])],
      [("Transform", ["EulerTransform"])]]⟩
    "itk::ExceptionObject: Inputs do not occupy the same physical space"
    (by decide) (by decide)
  exact h.1

/-- C9: in output-directory mode a successful `run_registration` leaves in
the directory exactly the two axis-separated component files:
`deformation_field_0.tiff` holds the component for the caller's first
spatial axis (the engine's component 1), `deformation_field_1.tiff` the
other; the stray engine artifact is gone and every other path is untouched
by the call. -/
theorem c9_outdir_exactly_two_component_files
    (eng : Engine) (atlas_image moving_image annotation_image : Image)
    (parameter_lists : List (String × ParameterMap)) (d : String) (fs0 : FS)
    (pobj : ParameterObject) (img : Image) (rtp : ParameterObject)
    (temp : List String) (annImg : Image) (df : DeformationField) (ws : Bool)
    (hsetup : setup_parameter_object parameter_lists = .ok pobj)
    (hrun : eng.elastixRun moving_image atlas_image pobj = .ok (img, rtp))
    (hget : rtp.GetParameter 0 "FinalBSplineInterpolationOrder" = .ok temp)
    (hann : eng.transformix annotation_image
      (rtp.SetParameter "FinalBSplineInterpolationOrder" ["0"]) = .ok annImg)
    (hfield : eng.transformixField moving_image
      ((rtp.SetParameter "FinalBSplineInterpolationOrder" ["0"]).SetParameter
        "FinalBSplineInterpolationOrder" temp) = .ok (df, ws)) :
    ∀ res fs, run_registration eng atlas_image moving_image annotation_image
        parameter_lists (some d) fs0 = .ok (res, fs) →
      fsLookup fs (d ++ "/deformation_field_0.tiff") =
        some (.img (callerAxisComponent df 0)) ∧
      fsLookup fs (d ++ "/deformation_field_1.tiff") =
        some (.img (callerAxisComponent df 1)) ∧
      fsLookup fs (d ++ "/deformationField.tiff") = none ∧
      ∀ p, p ≠ d ++ "/deformation_field_0.tiff" →
        p ≠ d ++ "/deformation_field_1.tiff" →
        p ≠ d ++ "/deformationField.tiff" →
        fsLookup fs p = fsLookup fs0 p := by
  intro res fs hok
  have hne01 : (d ++ "/deformation_field_0.tiff" : String) ≠
      d ++ "/deformation_field_1.tiff" := by
    intro hc
    have := (string_append_right_inj d _ _).mp hc
    exact absurd this (by decide)
  have hne0s : (d ++ "/deformation_field_0.tiff" : String) ≠
      d ++ "/deformationField.tiff" := by
    intro hc
    have := (string_append_right_inj d _ _).mp hc
    exact absurd this (by decide)
  have hne1s : (d ++ "/deformation_field_1.tiff" : String) ≠
      d ++ "/deformationField.tiff" := by
    intro hc
    have := (string_append_right_inj d _ _).mp hc
    exact absurd this (by decide)
  rw [run_registration_ok_some eng atlas_image moving_image annotation_image
    parameter_lists d fs0 pobj img rtp temp annImg df ws hsetup hrun hget
    hann hfield] at hok
  cases hu : unlink
      (imwrite
        (imwrite
          (if ws then imwrite fs0 (d ++ "/deformationField.tiff") (.fld df)
           else fs0)
          (d ++ "/deformation_field_0.tiff") (.img (componentSlice df 1)))
        (d ++ "/deformation_field_1.tiff") (.img (componentSlice df 0)))
      (d ++ "/deformationField.tiff") with
  | error e =>
      rw [hu, except_map_error] at hok
      exact Except.noConfusion hok
  | ok fsu =>
      rw [hu, except_map_ok] at hok
      injection hok with hok
      injection hok with hok1 hok2
      subst hok2
      have hfsu := unlink_ok_shape _ _ _ hu
      subst hfsu
      refine ⟨?_, ?_, fsLookup_filter_self _ _, ?_⟩
      · unfold fsLookup
        rw [find?_filter_ne _ _ _ hne0s]
        have := fsLookup_imwrite_other
          (imwrite
            (if ws then imwrite fs0 (d ++ "/deformationField.tiff") (.fld df)
             else fs0)
            (d ++ "/deformation_field_0.tiff") (.img (componentSlice df 1)))
          (d ++ "/deformation_field_1.tiff") (d ++ "/deformation_field_0.tiff")
          (.img (componentSlice df 0)) hne01
        unfold fsLookup at this
        rw [this]
        have h2 := fsLookup_imwrite_self
          (if ws then imwrite fs0 (d ++ "/deformationField.tiff") (.fld df)
           else fs0)
          (d ++ "/deformation_field_0.tiff") (.img (componentSlice df 1))
        unfold fsLookup at h2
        rw [h2, callerAxisComponent_zero]
      · unfold fsLookup
        rw [find?_filter_ne _ _ _ hne1s]
        have h2 := fsLookup_imwrite_self
          (imwrite
            (if ws then imwrite fs0 (d ++ "/deformationField.tiff") (.fld df)
             else fs0)
            (d ++ "/deformation_field_0.tiff") (.img (componentSlice df 1)))
          (d ++ "/deformation_field_1.tiff") (.img (componentSlice df 0))
        unfold fsLookup at h2
        rw [h2, callerAxisComponent_one]
      · intro p hp0 hp1 hps
        unfold fsLookup
        rw [find?_filter_ne _ _ _ hps]
        have ha := fsLookup_imwrite_other
          (imwrite
            (if ws then imwrite fs0 (d ++ "/deformationField.tiff") (.fld df)
             else fs0)
            (d ++ "/deformation_field_0.tiff") (.img (componentSlice df 1)))
          (d ++ "/deformation_field_1.tiff") p (.img (componentSlice df 0))
          hp1
        unfold fsLookup at ha
        rw [ha]
        have hb := fsLookup_imwrite_other
          (if ws then imwrite fs0 (d ++ "/deformationField.tiff") (.fld df)
           else fs0)
          (d ++ "/deformation_field_0.tiff") p (.img (componentSlice df 1))
          hp0
        unfold fsLookup at hb
        rw [hb]
        cases ws with
        | false => rfl
        | true =>
            have hc := fsLookup_imwrite_other fs0
              (d ++ "/deformationField.tiff") p (.fld df) hps
            unfold fsLookup at hc
            rw [if_pos rfl]
            exact hc

/-- Witness for C9 at a concrete run into directory "out". -/
theorem c9_witness :
    fsLookup [("out/deformation_field_1.tiff", .img [[1]]),
              ("out/deformation_field_0.tiff", .img [[2]])]
        ("out" ++ "/deformation_field_0.tiff") =
      some (.img (callerAxisComponent cDf 0)) ∧
    fsLookup [("out/deformation_field_1.tiff", .img [[1]]),
              ("out/deformation_field_0.tiff", .img [[2]])]
        ("out" ++ "/deformation_field_1.tiff") =
      some (.img (callerAxisComponent cDf 1)) ∧
    fsLookup [("out/deformation_field_1.tiff", .img [[1]]),
              ("out/deformation_field_0.tiff", .img [[2]])]
        ("out" ++ "/deformationField.tiff") = none ∧
    fsLookup [("out/deformation_field_1.tiff", .img [[1]]),
              ("out/deformation_field_0.tiff", .img [[2]])] "sample.txt" =
      fsLookup ([] : FS) "sample.txt" := by
  have h := c9_outdir_exactly_two_component_files cEngineUniform cImg cImg
    cImg cSpecs "out" [] ⟨[[("Transform", ["EulerTransform"])]]⟩ cImg
    cRtpUniform ["3"] cImg cDf true (by decide) (by decide) (by decide)
    (by decide) (by decide)
  obtain ⟨h0, h1, hs, hrest⟩ := h ⟨cImg, cRtpUniform, cImg, cDf⟩
    [("out/deformation_field_1.tiff", .img [[1]]),
     ("out/deformation_field_0.tiff", .img [[2]])] (by decide)
  exact ⟨h0, h1, hs,
    hrest "sample.txt" (by decide) (by decide) (by decide)⟩

/-- C8: `invert_transformation` (modelled from the spec: the function is
imported by the tests from `brainglobe_registration.elastix.register` but
absent from the source tree) re-runs registration with the reference image
passed as BOTH the fixed and the moving input, seeded with the forward
transform as the initial transform; on success it returns the reference
image mapped through the composed inverse together with the inverse
transform object, and it fails with `InversionError` exactly when the
seeded optimization signals non-convergence. -/
theorem c8_invert_seeded_with_reference_pair
    (eng : Engine) (reference_image : Image)
    (parameter_lists : List (String × ParameterMap))
    (forward_transform : ParameterObject) (pobj : ParameterObject)
    (hsetup : setup_parameter_object parameter_lists = .ok pobj) :
    (∀ inverted_image inverse_transform,
      eng.elastixRunSeeded reference_image reference_image pobj
          forward_transform = .ok (inverted_image, inverse_transform) →
      invert_transformation eng reference_image parameter_lists
        forward_transform = .ok (inverted_image, inverse_transform)) ∧
    (∀ m, invert_transformation eng reference_image parameter_lists
        forward_transform = .error (.inversionError m) ↔
      eng.elastixRunSeeded reference_image reference_image pobj
          forward_transform = .error (.nonConvergence m)) := by
  constructor
  · intro inverted_image inverse_transform hok
    unfold invert_transformation
    rw [hsetup, except_mapError_ok, except_bind_ok]
    simp only [hok]
    rfl
  · intro m
    constructor
    · intro h
      unfold invert_transformation at h
      rw [hsetup, except_mapError_ok, except_bind_ok] at h
      cases hr : eng.elastixRunSeeded reference_image reference_image pobj
          forward_transform with
      | ok pr =>
          simp only [hr] at h
          exact Except.noConfusion h
      | error er =>
          cases er with
          | nonConvergence s =>
              simp only [hr, Except.error.injEq,
                RegError.inversionError.injEq] at h
              subst h
              rfl
          | failure s =>
              simp only [hr, Except.error.injEq] at h
              exact absurd h (by intro hc; exact RegError.noConfusion hc)
    · intro h
      unfold invert_transformation
      rw [hsetup, except_mapError_ok, except_bind_ok]
      simp only [h]

/-- Witness for C8 at a concrete diverging seeded engine. -/
theorem c8_witness :
    invert_transformation cEngine cImg cSpecs cRtp =
      .error (.inversionError "diverged") := by
  have h := c8_invert_seeded_with_reference_pair cEngine cImg cSpecs cRtp
    ⟨[[("Transform", ["EulerTransform"])]]⟩ (by decide)
  exact (h.2 "diverged").mpr (by decide)
